import Mathlib

/-!
Verification of the contact-request / rating workflow of the HomLet
real-estate backend (routes in the client router, schema in
src/models/ContactRequest.js).  The document store is embedded as lists
of records; `findOne`/`findById` become `List.find?`; each HTTP handler
becomes a pure function from the store and the request data to a result
and the new store.  Numbers that JavaScript holds as doubles are
embedded as exact rationals; `parseInt` on a decimal numeral becomes
truncation toward zero.
-/

namespace HomLet

/-- A User document.  Only the fields the routes read are embedded:
`_id`, `role`, `unlockedAgents`, and the rating aggregate (`rating`,
`totalRatings`) that the submit-rating handler writes back. -/
structure User where
  id : Nat
  role : String
  unlockedAgents : List Nat
  rating : ℚ
  totalRatings : Nat
  deriving Repr, DecidableEq

/-- A Property document, with the fields the dashboard filter and the
rate-agent page read: `agent`, `status`, `location.state`,
`location.area`, `price`, `propertyType`, `createdAt` (the timestamp
the store sets on create, used by the newest-first sort). -/
structure Property where
  id : Nat
  agent : Nat
  status : String
  locationState : String
  locationArea : String
  price : Int
  propertyType : String
  createdAt : Nat
  deriving Repr, DecidableEq

/-- A ContactRequest document (schema in src/models/ContactRequest.js):
references `client`, `agent`, `property`; `status` defaults to
"pending" and `notes` to the empty string. -/
structure ContactRequest where
  client : Nat
  agent : Nat
  property : Nat
  status : String
  notes : String
  deriving Repr, DecidableEq

/-- A Rating document (external schema, used by the rating routes):
references `client`, `agent`, `property`; `rating` holds the value the
handler stores (the result of `parseInt`), `comment` the free text. -/
structure Rating where
  client : Nat
  agent : Nat
  property : Nat
  rating : Int
  comment : String
  deriving Repr, DecidableEq

/-- The document store: one collection per model. -/
structure DB where
  users : List User
  properties : List Property
  contactRequests : List ContactRequest
  ratings : List Rating
  deriving Repr, DecidableEq

/-- `User.findById` over the embedded store. -/
def findUser (db : DB) (uid : Nat) : Option User :=
  db.users.find? (fun u => u.id == uid)

/-- `Property.findById` over the embedded store. -/
def findProperty (db : DB) (pid : Nat) : Option Property :=
  db.properties.find? (fun p => p.id == pid)

/-- The (client, agent, property) triple of a ContactRequest. -/
def ContactRequest.triple (c : ContactRequest) : Nat × Nat × Nat :=
  (c.client, c.agent, c.property)

/-- The (client, agent, property) triple of a Rating. -/
def Rating.triple (r : Rating) : Nat × Nat × Nat :=
  (r.client, r.agent, r.property)

/-- No two records of the list share the same (client, agent, property)
triple. -/
def uniqueRequestTriples (l : List ContactRequest) : Prop :=
  (l.map ContactRequest.triple).Nodup

/-- No two records of the list share the same (client, agent, property)
triple. -/
def uniqueRatingTriples (l : List Rating) : Prop :=
  (l.map Rating.triple).Nodup

/-- Outcome of POST /contact-agent, as the handler reports it. -/
inductive ContactResult where
  | missingField
  | duplicateRequest
  | notFound
  | success
  deriving Repr, DecidableEq

/-- The HTTP status the handler attaches to each outcome
(`res.status(400)`, `res.status(404)`, or the default 200 of
`res.json`). -/
def ContactResult.httpStatus : ContactResult → Nat
  | .missingField => 400
  | .duplicateRequest => 400
  | .notFound => 404
  | .success => 200

/-- The hardcoded operator distribution list of POST /contact-agent. -/
def adminEmails : List String :=
  ["anthonyajibola65@gmail.com", "Kennethuwota12@gmail.com"]

/-- POST /contact-agent.  `sid` is `req.session.user._id`; `agentId`
and `propertyId` come from the body, `none` standing for an absent (or
empty, hence falsy) field; `notify` is the mail transport, returning
whether a given send succeeds.  Returns the handler outcome, the new
store, and the list of attempted sends with each outcome (a failed send
is only logged, so it appears here with `false` and nothing else
changes). -/
def createRequest (db : DB) (notify : String → Bool) (sid : Nat)
    (agentId propertyId : Option Nat) :
    ContactResult × DB × List (String × Bool) :=
  match agentId, propertyId with
  | some aid, some pid =>
    match db.contactRequests.find?
        (fun c => c.client == sid && c.agent == aid && c.property == pid) with
    | some _ => (.duplicateRequest, db, [])
    | none =>
      match findUser db sid, findUser db aid, findProperty db pid with
      | some _, some _, some _ =>
        let req : ContactRequest :=
          { client := sid, agent := aid, property := pid
            status := "pending", notes := "" }
        let attempts := adminEmails.map (fun e => (e, notify e))
        (.success, { db with contactRequests := db.contactRequests ++ [req] },
          attempts)
      | _, _, _ => (.notFound, db, [])
  | _, _ => (.missingField, db, [])

/-- Outcome of POST /rate/:agentId.  `unexpectedError` is the catch-all
branch (reached, e.g., when the agent lookup after the save returns no
document and the aggregate update throws). -/
inductive RatingResult where
  | invalidRating
  | duplicateRating
  | success
  | unexpectedError
  deriving Repr, DecidableEq

/-- `parseInt` applied to the decimal rendering of a number: truncation
toward zero (the magnitude is divided out by Nat division, the sign
reattached). -/
def jsTrunc (q : ℚ) : Int :=
  if 0 ≤ q then ((q.num.natAbs / q.den : ℕ) : ℤ)
  else -((q.num.natAbs / q.den : ℕ) : ℤ)

/-- POST /rate/:agentId.  `sid` is the session user, `aid` the path
parameter, `pid` and `ratingValue` and `comment` the body fields
(`none` standing for an absent rating field; the value `0` is falsy and
also rejected).  The new Rating is saved before the aggregate is
recomputed: `Rating.find({agent})` then sees the new record, and the
mean and count are written back onto the agent document. -/
def submitRating (db : DB) (sid aid pid : Nat) (ratingValue : Option ℚ)
    (comment : String) : RatingResult × DB :=
  match ratingValue with
  | none => (.invalidRating, db)
  | some v =>
    if v = 0 ∨ v < 1 ∨ 5 < v then (.invalidRating, db)
    else
      match db.ratings.find?
          (fun r => r.client == sid && r.agent == aid && r.property == pid) with
      | some _ => (.duplicateRating, db)
      | none =>
        let newRating : Rating :=
          { client := sid, agent := aid, property := pid
            rating := jsTrunc v, comment := comment }
        let db1 : DB := { db with ratings := db.ratings ++ [newRating] }
        match findUser db1 aid with
        | none => (.unexpectedError, db1)
        | some agent =>
          let allRatings := db1.ratings.filter (fun r => r.agent == aid)
          let totalRating : Int :=
            allRatings.foldl (fun sum r => sum + r.rating) 0
          let avgRating : ℚ := (totalRating : ℚ) / (allRatings.length : ℚ)
          let agent1 : User :=
            { agent with rating := avgRating, totalRatings := allRatings.length }
          (.success,
            { db1 with
              users := db1.users.map (fun u => if u.id == aid then agent1 else u) })

/-- The Rating document POST /rate/:agentId builds from the request
(the handler stores `parseInt(rating)`). -/
def newRatingDoc (sid aid pid : Nat) (v : ℚ) (comment : String) : Rating :=
  { client := sid, agent := aid, property := pid
    rating := jsTrunc v, comment := comment }

/-- The Rating documents `Rating.find({agent})` returns after the new
rating is saved: all stored ratings of the agent, the new one
included. -/
def agentRatingsAfter (db : DB) (sid aid pid : Nat) (v : ℚ)
    (comment : String) : List Rating :=
  (db.ratings ++ [newRatingDoc sid aid pid v comment]).filter
    (fun r => r.agent == aid)

/-- The agent document after the aggregate recomputation: the mean of
all its stored rating values and their count written onto it. -/
def updatedAgentDoc (db : DB) (agent : User) (sid aid pid : Nat) (v : ℚ)
    (comment : String) : User :=
  { agent with
    rating :=
      (((agentRatingsAfter db sid aid pid v comment).foldl
          (fun sum r => sum + r.rating) 0 : ℤ) : ℚ) /
        (((agentRatingsAfter db sid aid pid v comment).length : ℕ) : ℚ)
    totalRatings := (agentRatingsAfter db sid aid pid v comment).length }

/-- The store a successful POST /rate/:agentId leaves behind, given
the agent document the lookup returned: the new Rating appended, and
the agent document carrying the recomputed mean and count saved back.
This names the success branch of `submitRating`; the run lemma below
proves the two agree. -/
def ratingSuccessState (db : DB) (agent : User) (sid aid pid : Nat)
    (v : ℚ) (comment : String) : DB :=
  { db with
    ratings := db.ratings ++ [newRatingDoc sid aid pid v comment]
    users := db.users.map
      (fun u => if u.id == aid
        then updatedAgentDoc db agent sid aid pid v comment else u) }

/-- Outcome of GET /rate/:agentId: the dashboard redirect with the
"Agent not found" flash, the redirect with the "only rate agents you
have unlocked" flash, the rendered rating form (with the properties of
the agent), or the catch-all error redirect (reached, e.g., when the
session user resolves to no document and reading its `unlockedAgents`
throws). -/
inductive RatePageResult where
  | agentNotFound
  | notUnlocked
  | renderForm (properties : List Property)
  | errorPage
  deriving Repr, DecidableEq

/-- GET /rate/:agentId: resolve the agent; if missing or its role is
not "agent", flash "Agent not found" and redirect; otherwise check the
session clients `unlockedAgents`; otherwise render the form over the
agents properties. -/
def ratePage (db : DB) (sid aid : Nat) : RatePageResult :=
  match findUser db aid with
  | none => .agentNotFound
  | some agent =>
    if agent.role ≠ "agent" then .agentNotFound
    else
      match findUser db sid with
      | none => .errorPage
      | some client =>
        if aid ∈ client.unlockedAgents then
          .renderForm (db.properties.filter (fun p => p.agent == aid))
        else .notUnlocked

/-- The optional query parameters of GET /dashboard.  `none` stands
for an absent (or empty, hence falsy) parameter. -/
structure DashQuery where
  state : Option String
  area : Option String
  minPrice : Option Int
  maxPrice : Option Int
  type : Option String
  deriving Repr, DecidableEq

/-- One step of the case-insensitive pattern match the dashboard
performs: the handler builds `new RegExp(param, i-flag)` from the raw
parameter, so a dot in the parameter matches any character, and any
other (literal) character matches itself up to ASCII case. -/
def charMatches (pc sc : Char) : Bool :=
  pc == '.' || pc.toLower == sc.toLower

/-- Whether the pattern matches at the very start of the text
(the pattern may end before the text does). -/
def matchHere : List Char → List Char → Bool
  | [], _ => true
  | _ :: _, [] => false
  | pc :: ps, sc :: ss => charMatches pc sc && matchHere ps ss

/-- Unanchored search: whether the pattern matches at some position of
the text, as `RegExp.test` does. -/
def regexSearch (pat s : List Char) : Bool :=
  matchHere pat s ||
    match s with
    | [] => false
    | _ :: ss => regexSearch pat ss

/-- `new RegExp(pat, i-flag).test(s)` for the fragment of patterns the
model covers: literal characters and the dot wildcard (the ASCII
approximation of the case-folding i flag). -/
def regexTestCI (pat s : String) : Bool :=
  regexSearch pat.toList s.toList

/-- Modelled from the spec: the spec describes the state and area
filters as a case-insensitive SUBSTRING match of the parameter against
the stored field.  Step: the parameter matches at the start of the
text, every character compared literally up to case. -/
def ciPrefixAt : List Char → List Char → Bool
  | [], _ => true
  | _ :: _, [] => false
  | pc :: ps, sc :: ss => pc.toLower == sc.toLower && ciPrefixAt ps ss

/-- Modelled from the spec: case-insensitive substring containment,
the reading the spec gives of the state and area filters. -/
def ciSubstring (pat s : List Char) : Bool :=
  ciPrefixAt pat s ||
    match s with
    | [] => false
    | _ :: ss => ciSubstring pat ss

/-- Modelled from the spec: case-insensitive substring test on
strings. -/
def ciSubstringTest (pat s : String) : Bool :=
  ciSubstring pat.toList s.toList

/-- The filter GET /dashboard builds: status must be "active", and
each supplied parameter adds one conjunct — state and area as
case-insensitive pattern tests, minPrice/maxPrice as an inclusive
price range (the spread of `filter.price` keeps `$gte` when `$lte` is
added), type as an exact propertyType match. -/
def propertyMatches (q : DashQuery) (p : Property) : Bool :=
  p.status == "active" &&
  (match q.state with
   | none => true
   | some s => regexTestCI s p.locationState) &&
  (match q.area with
   | none => true
   | some a => regexTestCI a p.locationArea) &&
  (match q.minPrice with
   | none => true
   | some m => decide (m ≤ p.price)) &&
  (match q.maxPrice with
   | none => true
   | some M => decide (p.price ≤ M)) &&
  (match q.type with
   | none => true
   | some t => p.propertyType == t)

/-- The order `.sort(createdAt descending)` produces: a property comes
before another when its creation time is at least as late. -/
def newerFirst (a b : Property) : Prop :=
  b.createdAt ≤ a.createdAt

instance : DecidableRel newerFirst :=
  fun a b => inferInstanceAs (Decidable (b.createdAt ≤ a.createdAt))

instance : IsTotal Property newerFirst :=
  ⟨fun a b => by unfold newerFirst; exact Nat.le_total _ _⟩

instance : IsTrans Property newerFirst :=
  ⟨fun _ _ _ hab hbc => by unfold newerFirst at *; exact Nat.le_trans hbc hab⟩

/-- GET /dashboard: the matching properties, newest first. -/
def dashboard (db : DB) (q : DashQuery) : List Property :=
  List.insertionSort newerFirst (db.properties.filter (propertyMatches q))

/-! Concrete records used to instantiate the theorems below. -/

/-- A sample client. -/
def sampleClient : User :=
  { id := 1, role := "client", unlockedAgents := [], rating := 0
    totalRatings := 0 }

/-- A sample agent. -/
def sampleAgent : User :=
  { id := 2, role := "agent", unlockedAgents := [], rating := 0
    totalRatings := 0 }

/-- A sample property listed by the sample agent. -/
def sampleProperty : Property :=
  { id := 3, agent := 2, status := "active", locationState := "Lagos"
    locationArea := "Lekki", price := 100, propertyType := "flat"
    createdAt := 10 }

/-- A sample store with one client, one agent, one property and no
requests or ratings yet. -/
def sampleDb : DB :=
  { users := [sampleClient, sampleAgent], properties := [sampleProperty]
    contactRequests := [], ratings := [] }

/-- A sample store in which the agent already carries ratings 5 and 3
from two other triples. -/
def sampleDbRated : DB :=
  { users := [sampleAgent], properties := []
    contactRequests := []
    ratings :=
      [{ client := 10, agent := 2, property := 3, rating := 5, comment := "" },
       { client := 11, agent := 2, property := 4, rating := 3, comment := "" }] }

/-- A sample active property whose location state is the three
characters a b c. -/
def propAbc : Property :=
  { id := 7, agent := 2, status := "active", locationState := "abc"
    locationArea := "", price := 5, propertyType := "flat"
    createdAt := 1 }

/-- A sample store listing only `propAbc`. -/
def sampleDbAbc : DB :=
  { users := [], properties := [propAbc]
    contactRequests := [], ratings := [] }

/-- A sample dashboard query whose state parameter is the literal
letter b, with a price range and a type filter. -/
def dashQueryB : DashQuery :=
  { state := some "b", area := none, minPrice := some 1
    maxPrice := some 10, type := some "flat" }

/-! Helper lemmas. -/

/-- The duplicate pre-check of POST /contact-agent finds nothing
exactly when no stored request carries the probed triple. -/
theorem find?_request_eq_none_iff (l : List ContactRequest) (sid aid pid : Nat) :
    l.find? (fun c => c.client == sid && c.agent == aid && c.property == pid)
        = none ↔
      ∀ c ∈ l, ContactRequest.triple c ≠ (sid, aid, pid) := by
  rw [List.find?_eq_none]
  constructor
  · intro h c hc
    have := h c hc
    simp only [Bool.and_eq_true, beq_iff_eq] at this
    simp [ContactRequest.triple, Prod.ext_iff]
    tauto
  · intro h c hc
    have := h c hc
    simp [ContactRequest.triple, Prod.ext_iff] at this
    simp only [Bool.and_eq_true, beq_iff_eq]
    tauto

/-- The duplicate pre-check of POST /rate/:agentId finds nothing
exactly when no stored rating carries the probed triple. -/
theorem find?_rating_eq_none_iff (l : List Rating) (sid aid pid : Nat) :
    l.find? (fun r => r.client == sid && r.agent == aid && r.property == pid)
        = none ↔
      ∀ r ∈ l, Rating.triple r ≠ (sid, aid, pid) := by
  rw [List.find?_eq_none]
  constructor
  · intro h r hr
    have := h r hr
    simp only [Bool.and_eq_true, beq_iff_eq] at this
    simp [Rating.triple, Prod.ext_iff]
    tauto
  · intro h r hr
    have := h r hr
    simp [Rating.triple, Prod.ext_iff] at this
    simp only [Bool.and_eq_true, beq_iff_eq]
    tauto

/-- Appending a record whose key differs from every stored key keeps
the mapped keys duplicate-free. -/
theorem nodup_map_append_of_fresh {α β : Type} (f : α → β) (l : List α) (a : α)
    (hl : (l.map f).Nodup) (ha : ∀ x ∈ l, f x ≠ f a) :
    ((l ++ [a]).map f).Nodup := by
  rw [List.map_append, List.map_singleton]
  refine (List.perm_append_singleton _ _).nodup_iff.mpr ?_
  exact List.nodup_cons.mpr ⟨by simpa using ha, hl⟩

/-- POST /contact-agent never touches the ratings collection (nor the
users or properties). -/
theorem createRequest_ratings_unchanged (db : DB) (notify : String → Bool)
    (sid : Nat) (aido pido : Option Nat) :
    (createRequest db notify sid aido pido).2.1.ratings = db.ratings := by
  cases aido with
  | none => simp [createRequest]
  | some aid =>
    cases pido with
    | none => simp [createRequest]
    | some pid =>
      cases hf : db.contactRequests.find?
          (fun c => c.client == sid && c.agent == aid && c.property == pid) with
      | some c => simp [createRequest, hf]
      | none =>
        cases hc : findUser db sid <;> cases ha : findUser db aid <;>
          cases hp : findProperty db pid <;> simp [createRequest, hf, hc, ha, hp]

/-- POST /contact-agent either leaves the contact-request collection
unchanged, or appends exactly one pending record for a triple no
stored record carries. -/
theorem createRequest_contactRequests_cases (db : DB) (notify : String → Bool)
    (sid : Nat) (aido pido : Option Nat) :
    (createRequest db notify sid aido pido).2.1.contactRequests
        = db.contactRequests ∨
    ∃ aid pid, aido = some aid ∧ pido = some pid ∧
      (∀ c ∈ db.contactRequests, ContactRequest.triple c ≠ (sid, aid, pid)) ∧
      (createRequest db notify sid aido pido).2.1.contactRequests
        = db.contactRequests ++
            [{ client := sid, agent := aid, property := pid
               status := "pending", notes := "" }] := by
  cases aido with
  | none => exact Or.inl (by simp [createRequest])
  | some aid =>
    cases pido with
    | none => exact Or.inl (by simp [createRequest])
    | some pid =>
      cases hf : db.contactRequests.find?
          (fun c => c.client == sid && c.agent == aid && c.property == pid) with
      | some c => exact Or.inl (by simp [createRequest, hf])
      | none =>
        cases hc : findUser db sid <;> cases ha : findUser db aid <;>
          cases hp : findProperty db pid
        case some.some.some cl ag pr =>
          exact Or.inr ⟨aid, pid, rfl, rfl,
            (find?_request_eq_none_iff _ _ _ _).mp hf,
            by simp [createRequest, hf, hc, ha, hp]⟩
        all_goals exact Or.inl (by simp [createRequest, hf, hc, ha, hp])

/-- POST /rate/:agentId never touches the contact-request collection
(nor the properties). -/
theorem submitRating_contactRequests_unchanged (db : DB) (sid aid pid : Nat)
    (v : Option ℚ) (comment : String) :
    (submitRating db sid aid pid v comment).2.contactRequests
        = db.contactRequests := by
  cases v with
  | none => simp [submitRating]
  | some w =>
    by_cases hw : w = 0 ∨ w < 1 ∨ 5 < w
    · simp [submitRating, hw]
    · cases hf : db.ratings.find?
          (fun r => r.client == sid && r.agent == aid && r.property == pid) with
      | some r => simp [submitRating, hw, hf]
      | none =>
        cases hag : findUser
            { db with ratings := db.ratings ++
                [{ client := sid, agent := aid, property := pid
                   rating := jsTrunc w, comment := comment }] } aid with
        | none => simp [submitRating, hw, hf, hag]
        | some agent => simp [submitRating, hw, hf, hag]

/-- POST /rate/:agentId either leaves the ratings collection
unchanged, or appends exactly one record for a triple no stored rating
carries, holding the truncated submitted value. -/
theorem submitRating_ratings_cases (db : DB) (sid aid pid : Nat)
    (v : Option ℚ) (comment : String) :
    (submitRating db sid aid pid v comment).2.ratings = db.ratings ∨
    ∃ w, v = some w ∧
      (∀ r ∈ db.ratings, Rating.triple r ≠ (sid, aid, pid)) ∧
      (submitRating db sid aid pid v comment).2.ratings
        = db.ratings ++
            [{ client := sid, agent := aid, property := pid
               rating := jsTrunc w, comment := comment }] := by
  cases v with
  | none => exact Or.inl (by simp [submitRating])
  | some w =>
    by_cases hw : w = 0 ∨ w < 1 ∨ 5 < w
    · exact Or.inl (by simp [submitRating, hw])
    · cases hf : db.ratings.find?
          (fun r => r.client == sid && r.agent == aid && r.property == pid) with
      | some r => exact Or.inl (by simp [submitRating, hw, hf])
      | none =>
        refine Or.inr ⟨w, rfl, (find?_rating_eq_none_iff _ _ _ _).mp hf, ?_⟩
        cases hag : findUser
            { db with ratings := db.ratings ++
                [{ client := sid, agent := aid, property := pid
                   rating := jsTrunc w, comment := comment }] } aid with
        | none => simp [submitRating, hw, hf, hag]
        | some agent => simp [submitRating, hw, hf, hag]

/-- C1: starting from a store in which no two ContactRequest records
and no two Rating records share the same (client, agent, property)
triple, one run of createRequest and one run of submitRating (each run
to completion on its own) both preserve that invariant: a record is
inserted only after the pre-check has found no record with the exact
triple. -/
theorem unique_triples_preserved
    (db : DB) (notify : String → Bool) (sid : Nat) (aido pido : Option Nat)
    (rsid raid rpid : Nat) (v : Option ℚ) (comment : String)
    (hreq : uniqueRequestTriples db.contactRequests)
    (hrat : uniqueRatingTriples db.ratings) :
    (uniqueRequestTriples
        (createRequest db notify sid aido pido).2.1.contactRequests ∧
      uniqueRatingTriples (createRequest db notify sid aido pido).2.1.ratings) ∧
    (uniqueRequestTriples
        (submitRating db rsid raid rpid v comment).2.contactRequests ∧
      uniqueRatingTriples (submitRating db rsid raid rpid v comment).2.ratings) := by
  refine ⟨⟨?_, ?_⟩, ?_, ?_⟩
  · rcases createRequest_contactRequests_cases db notify sid aido pido with
      h | ⟨aid, pid, _, _, hfresh, h⟩
    · rw [uniqueRequestTriples, h]; exact hreq
    · rw [uniqueRequestTriples, h]
      exact nodup_map_append_of_fresh _ _ _ hreq fun c hc => hfresh c hc
  · rw [uniqueRatingTriples, createRequest_ratings_unchanged]; exact hrat
  · rw [uniqueRequestTriples, submitRating_contactRequests_unchanged]
    exact hreq
  · rcases submitRating_ratings_cases db rsid raid rpid v comment with
      h | ⟨w, _, hfresh, h⟩
    · rw [uniqueRatingTriples, h]; exact hrat
    · rw [uniqueRatingTriples, h]
      exact nodup_map_append_of_fresh _ _ _ hrat fun r hr => hfresh r hr

/-- C1 instantiated at the sample store. -/
theorem unique_triples_preserved_inst :
    uniqueRequestTriples
        (createRequest sampleDb (fun _ => true) 1 (some 2) (some 3)).2.1.contactRequests ∧
    uniqueRatingTriples (submitRating sampleDb 1 2 3 (some 4) "ok").2.ratings := by
  have h := unique_triples_preserved sampleDb (fun _ => true) 1 (some 2) (some 3)
    1 2 3 (some 4) "ok"
    (by simp [uniqueRequestTriples, sampleDb])
    (by simp [uniqueRatingTriples, sampleDb])
  exact ⟨h.1.1, h.2.2⟩

/-- C2: POST /contact-agent fails with MissingField (HTTP 400) when
agentId or propertyId is absent; otherwise fails with DuplicateRequest
(HTTP 400) when a request for the exact triple exists, before any
entity lookup; otherwise fails with NotFound (HTTP 404) and persists
nothing when the client, agent or property id resolves to no record;
otherwise persists exactly one new pending ContactRequest with empty
notes and succeeds. -/
theorem createRequest_spec (db : DB) (notify : String → Bool) (sid : Nat)
    (aido pido : Option Nat) :
    ((aido = none ∨ pido = none) →
      createRequest db notify sid aido pido = (.missingField, db, [])
        ∧ ContactResult.missingField.httpStatus = 400) ∧
    ∀ aid pid, aido = some aid → pido = some pid →
      ((∃ c ∈ db.contactRequests, ContactRequest.triple c = (sid, aid, pid)) →
        createRequest db notify sid aido pido = (.duplicateRequest, db, [])
          ∧ ContactResult.duplicateRequest.httpStatus = 400) ∧
      ((∀ c ∈ db.contactRequests, ContactRequest.triple c ≠ (sid, aid, pid)) →
        ((findUser db sid = none ∨ findUser db aid = none
            ∨ findProperty db pid = none) →
          createRequest db notify sid aido pido = (.notFound, db, [])
            ∧ ContactResult.notFound.httpStatus = 404) ∧
        (findUser db sid ≠ none → findUser db aid ≠ none →
          findProperty db pid ≠ none →
          (createRequest db notify sid aido pido).1 = .success ∧
          (createRequest db notify sid aido pido).2.1 =
            { db with contactRequests := db.contactRequests ++
                [{ client := sid, agent := aid, property := pid
                   status := "pending", notes := "" }] })) := by
  constructor
  · intro h
    rcases h with rfl | rfl
    · exact ⟨by simp [createRequest], rfl⟩
    · cases aido <;> exact ⟨by simp [createRequest], rfl⟩
  · rintro aid pid rfl rfl
    constructor
    · intro hdup
      have hne : db.contactRequests.find?
          (fun c => c.client == sid && c.agent == aid && c.property == pid)
            ≠ none := by
        intro h
        obtain ⟨c, hc, ht⟩ := hdup
        exact (find?_request_eq_none_iff _ _ _ _).mp h c hc ht
      obtain ⟨c, hc⟩ := Option.ne_none_iff_exists'.mp hne
      exact ⟨by simp [createRequest, hc], rfl⟩
    · intro hfresh
      have hf := (find?_request_eq_none_iff db.contactRequests sid aid pid).mpr
        hfresh
      constructor
      · intro h
        rcases h with h | h | h
        · refine ⟨?_, rfl⟩
          cases ha : findUser db aid <;> cases hp : findProperty db pid <;>
            simp [createRequest, hf, h, ha, hp]
        · refine ⟨?_, rfl⟩
          cases hc : findUser db sid <;> cases hp : findProperty db pid <;>
            simp [createRequest, hf, h, hc, hp]
        · refine ⟨?_, rfl⟩
          cases hc : findUser db sid <;> cases ha : findUser db aid <;>
            simp [createRequest, hf, h, hc, ha]
      · intro h1 h2 h3
        obtain ⟨cl, hc⟩ := Option.ne_none_iff_exists'.mp h1
        obtain ⟨ag, ha⟩ := Option.ne_none_iff_exists'.mp h2
        obtain ⟨pr, hp⟩ := Option.ne_none_iff_exists'.mp h3
        exact ⟨by simp [createRequest, hf, hc, ha, hp],
          by simp [createRequest, hf, hc, ha, hp]⟩

/-- C2 instantiated at the sample store: the success branch. -/
theorem createRequest_spec_inst :
    (createRequest sampleDb (fun _ => true) 1 (some 2) (some 3)).1 = .success ∧
    (createRequest sampleDb (fun _ => true) 1 (some 2) (some 3)).2.1.contactRequests =
      [{ client := 1, agent := 2, property := 3
         status := "pending", notes := "" }] := by
  have h := ((createRequest_spec sampleDb (fun _ => true) 1
      (some 2) (some 3)).2 2 3 rfl rfl).2 (by decide)
  have h2 := h.2 (by decide) (by decide) (by decide)
  exact ⟨h2.1, by rw [h2.2]; simp [sampleDb]⟩

/-- The `reduce` the aggregate recomputation runs is the sum of the
rating values. -/
theorem foldl_rating_sum (l : List Rating) (init : Int) :
    l.foldl (fun sum r => sum + r.rating) init
      = init + (l.map Rating.rating).sum := by
  induction l generalizing init with
  | nil => simp
  | cons r t ih => simp [ih]; ring

/-- Saving the updated agent document back into the users collection:
looking the agent id up afterwards returns the updated document. -/
theorem find?_update_user (l : List User) (aid : Nat) (a1 : User)
    (hl : (l.find? (fun u => u.id == aid)).isSome) (h1 : (a1.id == aid) = true) :
    (l.map (fun u => if u.id == aid then a1 else u)).find?
        (fun u => u.id == aid) = some a1 := by
  induction l with
  | nil => simp at hl
  | cons u t ih =>
    by_cases hu : (u.id == aid) = true
    · rw [List.map_cons, if_pos hu,
        List.find?_cons_of_pos (p := fun u : User => u.id == aid) _ h1]
    · rw [List.map_cons, if_neg hu,
        List.find?_cons_of_neg (p := fun u : User => u.id == aid) _ hu]
      rw [List.find?_cons_of_neg (p := fun u : User => u.id == aid) _ hu] at hl
      exact ih hl

/-- Run lemma: with a valid value, a fresh triple, and an agent id that
resolves, POST /rate/:agentId succeeds and leaves
`ratingSuccessState` behind. -/
theorem submitRating_success_run (db : DB) (sid aid pid : Nat) (v : ℚ)
    (comment : String) (hv : ¬(v = 0 ∨ v < 1 ∨ 5 < v))
    (hf : db.ratings.find?
        (fun r => r.client == sid && r.agent == aid && r.property == pid)
      = none)
    (agent : User) (hagent : findUser db aid = some agent) :
    submitRating db sid aid pid (some v) comment =
      (.success, ratingSuccessState db agent sid aid pid v comment) := by
  have hag1 : findUser
      { db with ratings := db.ratings ++
          [{ client := sid, agent := aid, property := pid
             rating := jsTrunc v, comment := comment }] } aid
      = some agent := hagent
  simp [submitRating, ratingSuccessState, updatedAgentDoc, agentRatingsAfter,
    newRatingDoc, if_neg hv, hf, hag1]

/-- After a successful submit, looking the agent up returns the
updated document. -/
theorem findUser_ratingSuccessState (db : DB) (agent : User)
    (sid aid pid : Nat) (v : ℚ) (comment : String)
    (hagent : findUser db aid = some agent) :
    findUser (ratingSuccessState db agent sid aid pid v comment) aid
      = some (updatedAgentDoc db agent sid aid pid v comment) := by
  have hagentP : (agent.id == aid) = true :=
    List.find?_some (p := fun u : User => u.id == aid) (l := db.users) hagent
  show (db.users.map
      (fun u => if u.id == aid
        then updatedAgentDoc db agent sid aid pid v comment else u)).find?
      (fun u => u.id == aid) = _
  refine find?_update_user _ _ _ ?_ hagentP
  rw [show db.users.find? (fun u => u.id == aid) = findUser db aid from rfl,
    hagent]
  rfl

/-- C3: a successful submitRating recomputes the agent aggregate from
all persisted Rating records for that agent, the new one included: the
stored rating becomes the exact mean (sum of the values divided by
their count, over the post-state collection, equivalently over the
prior ratings plus the truncated new value) and totalRatings becomes
that count. -/
theorem submitRating_recomputes_mean
    (db : DB) (sid aid pid : Nat) (v : ℚ) (comment : String)
    (hv : ¬(v = 0 ∨ v < 1 ∨ 5 < v))
    (hfresh : ∀ r ∈ db.ratings, Rating.triple r ≠ (sid, aid, pid))
    (agent : User) (hagent : findUser db aid = some agent) :
    (submitRating db sid aid pid (some v) comment).1 = .success ∧
    (submitRating db sid aid pid (some v) comment).2.ratings =
      db.ratings ++ [{ client := sid, agent := aid, property := pid
                       rating := jsTrunc v, comment := comment }] ∧
    ∃ u, findUser (submitRating db sid aid pid (some v) comment).2 aid
        = some u ∧
      u.rating =
        (((((submitRating db sid aid pid (some v) comment).2.ratings.filter
              (fun r => r.agent == aid)).map Rating.rating).sum : ℤ) : ℚ) /
          ((((submitRating db sid aid pid (some v) comment).2.ratings.filter
              (fun r => r.agent == aid)).length : ℕ) : ℚ) ∧
      u.totalRatings =
        ((submitRating db sid aid pid (some v) comment).2.ratings.filter
          (fun r => r.agent == aid)).length ∧
      u.rating =
        (((((db.ratings.filter (fun r => r.agent == aid)).map
              Rating.rating).sum + jsTrunc v : ℤ) : ℚ)) /
          ((((db.ratings.filter (fun r => r.agent == aid)).length : ℕ) : ℚ)
            + 1) ∧
      u.totalRatings
        = (db.ratings.filter (fun r => r.agent == aid)).length + 1 := by
  have hf := (find?_rating_eq_none_iff db.ratings sid aid pid).mpr hfresh
  have hrun := submitRating_success_run db sid aid pid v comment hv hf agent
    hagent
  have hfind := findUser_ratingSuccessState db agent sid aid pid v comment
    hagent
  have hsplit : agentRatingsAfter db sid aid pid v comment
      = db.ratings.filter (fun r => r.agent == aid)
        ++ [newRatingDoc sid aid pid v comment] := by
    rw [agentRatingsAfter, List.filter_append]
    congr 1
    simp [newRatingDoc]
  rw [hrun]
  refine ⟨rfl, rfl, updatedAgentDoc db agent sid aid pid v comment, hfind,
    ?_, rfl, ?_, ?_⟩
  · simp only [updatedAgentDoc]
    rw [foldl_rating_sum, zero_add]
    rfl
  · simp only [updatedAgentDoc, hsplit, foldl_rating_sum, zero_add,
      List.map_append, List.sum_append, List.length_append]
    simp [newRatingDoc]
  · simp only [updatedAgentDoc, hsplit, List.length_append]
    simp

/-- C3 instantiated: ratings 5 and 3 already stored for the agent,
then a rating of 4 is submitted from a third triple — the agent record
now carries the mean 4 and the count 3. -/
theorem submitRating_recomputes_mean_inst :
    (submitRating sampleDbRated 12 2 5 (some 4) "").1 = .success ∧
    ∃ u, findUser (submitRating sampleDbRated 12 2 5 (some 4) "").2 2
        = some u ∧ u.rating = 4 ∧ u.totalRatings = 3 := by
  have h := submitRating_recomputes_mean sampleDbRated 12 2 5 4 ""
    (by decide) (by decide) sampleAgent (by decide)
  obtain ⟨h1, _, u, hu, _, _, hr, hc⟩ := h
  refine ⟨h1, u, hu, ?_, ?_⟩
  · have hj : jsTrunc (4 : ℚ) = 4 := by decide
    rw [hr, hj]
    norm_num [sampleDbRated]
  · rw [hc]
    simp [sampleDbRated]

/-- Run lemma: with both ids present, no duplicate, and all three
entities resolving, POST /contact-agent persists the pending request
and attempts every operator send. -/
theorem createRequest_success_run (db : DB) (notify : String → Bool)
    (sid aid pid : Nat)
    (hf : db.contactRequests.find?
        (fun c => c.client == sid && c.agent == aid && c.property == pid)
      = none)
    (cl ag : User) (pr : Property) (hc : findUser db sid = some cl)
    (ha : findUser db aid = some ag) (hp : findProperty db pid = some pr) :
    createRequest db notify sid (some aid) (some pid) =
      (.success,
        { db with contactRequests := db.contactRequests ++
            [{ client := sid, agent := aid, property := pid
               status := "pending", notes := "" }] },
        adminEmails.map (fun e => (e, notify e))) := by
  simp [createRequest, hf, hc, ha, hp]

/-- C4: when a Rating for the exact (client, agent, property) triple
already exists, a further submitRating call with that triple and a
value that passes validation fails with DuplicateRating; whatever the
submitted value, the store — hence the agents rating and totalRatings
fields — is left unchanged and no Rating is persisted. -/
theorem submitRating_duplicate_rejected
    (db : DB) (sid aid pid : Nat) (v : ℚ) (comment : String)
    (hdup : ∃ r ∈ db.ratings, Rating.triple r = (sid, aid, pid))
    (hv : ¬(v = 0 ∨ v < 1 ∨ 5 < v)) :
    submitRating db sid aid pid (some v) comment = (.duplicateRating, db) ∧
    ∀ w : Option ℚ, (submitRating db sid aid pid w comment).2 = db := by
  have hne : db.ratings.find?
      (fun r => r.client == sid && r.agent == aid && r.property == pid)
        ≠ none := by
    intro h
    obtain ⟨r, hr, ht⟩ := hdup
    exact (find?_rating_eq_none_iff _ _ _ _).mp h r hr ht
  obtain ⟨r0, hr0⟩ := Option.ne_none_iff_exists'.mp hne
  constructor
  · simp [submitRating, if_neg hv, hr0]
  · intro w
    cases w with
    | none => simp [submitRating]
    | some w1 =>
      by_cases hw : w1 = 0 ∨ w1 < 1 ∨ 5 < w1
      · simp [submitRating, hw]
      · simp [submitRating, if_neg hw, hr0]

/-- C4 instantiated: the first stored triple submitted again. -/
theorem submitRating_duplicate_rejected_inst :
    submitRating sampleDbRated 10 2 3 (some 2) "x"
      = (.duplicateRating, sampleDbRated) :=
  (submitRating_duplicate_rejected sampleDbRated 10 2 3 2 "x"
    (by decide) (by decide)).1

/-- C5: a submitRating call whose ratingValue is absent or outside
[1,5] fails with InvalidRating and leaves the store unchanged, so no
Rating is persisted and the agent aggregate is untouched. -/
theorem submitRating_invalid_rejected
    (db : DB) (sid aid pid : Nat) (w : Option ℚ) (comment : String)
    (hw : w = none ∨ ∃ v, w = some v ∧ (v < 1 ∨ 5 < v)) :
    submitRating db sid aid pid w comment = (.invalidRating, db) := by
  rcases hw with rfl | ⟨v, rfl, hv⟩
  · simp [submitRating]
  · have hv3 : v = 0 ∨ v < 1 ∨ 5 < v := by
      rcases hv with h | h
      · exact Or.inr (Or.inl h)
      · exact Or.inr (Or.inr h)
    simp [submitRating, hv3]

/-- C5 instantiated at the values 6, 0 and null. -/
theorem submitRating_invalid_rejected_inst :
    submitRating sampleDb 1 2 3 (some 6) "" = (.invalidRating, sampleDb) ∧
    submitRating sampleDb 1 2 3 (some 0) "" = (.invalidRating, sampleDb) ∧
    submitRating sampleDb 1 2 3 none "" = (.invalidRating, sampleDb) :=
  ⟨submitRating_invalid_rejected sampleDb 1 2 3 (some 6) ""
      (Or.inr ⟨6, rfl, Or.inr (by norm_num)⟩),
   submitRating_invalid_rejected sampleDb 1 2 3 (some 0) ""
      (Or.inr ⟨0, rfl, Or.inl (by norm_num)⟩),
   submitRating_invalid_rejected sampleDb 1 2 3 none "" (Or.inl rfl)⟩

/-- C6: notification dispatch of POST /contact-agent is best-effort and
per-recipient isolated: the handler outcome and the stored state never
depend on the mail transport; on success every address of the fixed
operator list is attempted in sequence, each with its own outcome; and
with a transport that always fails a fresh request still succeeds with
the record persisted. -/
theorem createRequest_notification_best_effort
    (db : DB) (sid : Nat) (aido pido : Option Nat) :
    (∀ n1 n2 : String → Bool,
      (createRequest db n1 sid aido pido).1
          = (createRequest db n2 sid aido pido).1 ∧
      (createRequest db n1 sid aido pido).2.1
          = (createRequest db n2 sid aido pido).2.1) ∧
    (∀ notify : String → Bool,
      (createRequest db notify sid aido pido).1 = .success →
      (createRequest db notify sid aido pido).2.2
        = adminEmails.map (fun e => (e, notify e))) ∧
    (∀ aid pid, aido = some aid → pido = some pid →
      (∀ c ∈ db.contactRequests, ContactRequest.triple c ≠ (sid, aid, pid)) →
      findUser db sid ≠ none → findUser db aid ≠ none →
      findProperty db pid ≠ none →
      (createRequest db (fun _ => false) sid aido pido).1 = .success ∧
      (createRequest db (fun _ => false) sid aido pido).2.1.contactRequests
        = db.contactRequests ++
            [{ client := sid, agent := aid, property := pid
               status := "pending", notes := "" }]) := by
  refine ⟨?_, ?_, ?_⟩
  · intro n1 n2
    cases aido with
    | none => simp [createRequest]
    | some aid =>
      cases pido with
      | none => simp [createRequest]
      | some pid =>
        cases hf : db.contactRequests.find?
            (fun c => c.client == sid && c.agent == aid && c.property == pid) with
        | some c => simp [createRequest, hf]
        | none =>
          cases hc : findUser db sid <;> cases ha : findUser db aid <;>
            cases hp : findProperty db pid <;>
              simp [createRequest, hf, hc, ha, hp]
  · intro notify h
    cases aido with
    | none => simp [createRequest] at h
    | some aid =>
      cases pido with
      | none => simp [createRequest] at h
      | some pid =>
        cases hf : db.contactRequests.find?
            (fun c => c.client == sid && c.agent == aid && c.property == pid) with
        | some c => simp [createRequest, hf] at h
        | none =>
          cases hc : findUser db sid <;> cases ha : findUser db aid <;>
            cases hp : findProperty db pid <;>
              simp [createRequest, hf, hc, ha, hp] at h ⊢
  · rintro aid pid rfl rfl hfresh h1 h2 h3
    obtain ⟨cl, hc⟩ := Option.ne_none_iff_exists'.mp h1
    obtain ⟨ag, ha⟩ := Option.ne_none_iff_exists'.mp h2
    obtain ⟨pr, hp⟩ := Option.ne_none_iff_exists'.mp h3
    have hf := (find?_request_eq_none_iff db.contactRequests sid aid pid).mpr
      hfresh
    rw [createRequest_success_run db (fun _ => false) sid aid pid hf cl ag pr
      hc ha hp]
    exact ⟨rfl, rfl⟩

/-- C6 instantiated: an always-failing transport, a fresh triple. -/
theorem createRequest_notification_best_effort_inst :
    (createRequest sampleDb (fun _ => false) 1 (some 2) (some 3)).1
      = .success ∧
    (createRequest sampleDb (fun _ => false) 1 (some 2) (some 3)).2.1.contactRequests
      = [{ client := 1, agent := 2, property := 3
           status := "pending", notes := "" }] := by
  have h := (createRequest_notification_best_effort sampleDb 1
    (some 2) (some 3)).2.2 2 3 rfl rfl (by decide) (by decide) (by decide)
    (by decide)
  exact ⟨h.1, by rw [h.2]; simp [sampleDb]⟩

/-- C7: the submit handler never re-verifies unlock status: a client
who has not unlocked the agent still succeeds with a value in [1,5]
and a fresh triple, the Rating persisted — only rating bounds and
duplication are checked on the submit path. -/
theorem submitRating_no_unlock_check
    (db : DB) (sid aid pid : Nat) (v : ℚ) (comment : String)
    (client : User) (_hclient : findUser db sid = some client)
    (_hlocked : aid ∉ client.unlockedAgents)
    (h1 : 1 ≤ v) (h5 : v ≤ 5)
    (hfresh : ∀ r ∈ db.ratings, Rating.triple r ≠ (sid, aid, pid))
    (agent : User) (hagent : findUser db aid = some agent) :
    (submitRating db sid aid pid (some v) comment).1 = .success ∧
    (submitRating db sid aid pid (some v) comment).2.ratings =
      db.ratings ++ [newRatingDoc sid aid pid v comment] := by
  have hv : ¬(v = 0 ∨ v < 1 ∨ 5 < v) := by
    rintro (rfl | h | h) <;> linarith
  have hf := (find?_rating_eq_none_iff db.ratings sid aid pid).mpr hfresh
  rw [submitRating_success_run db sid aid pid v comment hv hf agent hagent]
  exact ⟨rfl, rfl⟩

/-- C7 instantiated: the sample client has unlocked nobody yet its
submit succeeds. -/
theorem submitRating_no_unlock_check_inst :
    (submitRating sampleDb 1 2 3 (some 5) "great").1 = .success :=
  (submitRating_no_unlock_check sampleDb 1 2 3 5 "great" sampleClient
    (by decide) (by decide) (by decide) (by decide) (by decide) sampleAgent
    (by decide)).1

/-- C9: a numeric non-integer ratingValue within [1,5] passes
validation, and what is persisted is the integer truncation
parseInt(ratingValue), which differs from the submitted value. -/
theorem submitRating_truncates_value
    (db : DB) (sid aid pid : Nat) (v : ℚ) (comment : String)
    (h1 : 1 ≤ v) (h5 : v ≤ 5) (hden : v.den ≠ 1)
    (hfresh : ∀ r ∈ db.ratings, Rating.triple r ≠ (sid, aid, pid)) :
    (submitRating db sid aid pid (some v) comment).1 ≠ .invalidRating ∧
    (submitRating db sid aid pid (some v) comment).2.ratings =
      db.ratings ++ [newRatingDoc sid aid pid v comment] ∧
    ((jsTrunc v : ℤ) : ℚ) ≠ v := by
  have hv : ¬(v = 0 ∨ v < 1 ∨ 5 < v) := by
    rintro (rfl | h | h) <;> linarith
  have hf := (find?_rating_eq_none_iff db.ratings sid aid pid).mpr hfresh
  have hne : ((jsTrunc v : ℤ) : ℚ) ≠ v := by
    intro h
    apply hden
    have hd := congrArg Rat.den h
    simpa using hd.symm
  have h12 : (submitRating db sid aid pid (some v) comment).1
        ≠ .invalidRating ∧
      (submitRating db sid aid pid (some v) comment).2.ratings =
        db.ratings ++ [newRatingDoc sid aid pid v comment] := by
    cases hag : findUser
        { db with ratings := db.ratings ++
            [{ client := sid, agent := aid, property := pid
               rating := jsTrunc v, comment := comment }] } aid with
    | none =>
      constructor <;> simp [submitRating, if_neg hv, hf, hag, newRatingDoc]
    | some agent =>
      have hagent : findUser db aid = some agent := hag
      rw [submitRating_success_run db sid aid pid v comment hv hf agent hagent]
      exact ⟨by simp, rfl⟩
  exact ⟨h12.1, h12.2, hne⟩

/-- C9 instantiated at 4.7: stored rating is 4. -/
theorem submitRating_truncates_value_inst :
    (submitRating sampleDb 1 2 3 (some (mkRat 47 10)) "").2.ratings =
      [{ client := 1, agent := 2, property := 3, rating := 4, comment := "" }] ∧
    jsTrunc (mkRat 47 10) = 4 := by
  have h := submitRating_truncates_value sampleDb 1 2 3 (mkRat 47 10) ""
    (by decide) (by decide) (by decide) (by decide)
  have hj : jsTrunc (mkRat 47 10) = 4 := by decide
  refine ⟨?_, hj⟩
  rw [h.2.1]
  simp [sampleDb, newRatingDoc, hj]

/-- On a pattern with no dot, the anchored pattern match is exactly the
case-insensitive anchored comparison. -/
theorem matchHere_eq_ciPrefixAt (pat : List Char) (hpat : ∀ c ∈ pat, c ≠ '.') :
    ∀ s, matchHere pat s = ciPrefixAt pat s := by
  induction pat with
  | nil => intro s; cases s <;> rfl
  | cons pc ps ih =>
    intro s
    cases s with
    | nil => rfl
    | cons sc ss =>
      have hpc : (pc == '.') = false := by
        simpa using hpat pc (by simp)
      have ihs := ih (fun c hc => hpat c (by simp [hc])) ss
      simp [matchHere, ciPrefixAt, charMatches, hpc, ihs]

/-- On a pattern with no dot, the unanchored regex search is exactly
case-insensitive substring containment. -/
theorem regexSearch_eq_ciSubstring (pat : List Char)
    (hpat : ∀ c ∈ pat, c ≠ '.') :
    ∀ s, regexSearch pat s = ciSubstring pat s := by
  intro s
  induction s with
  | nil =>
    rw [regexSearch, ciSubstring, matchHere_eq_ciPrefixAt pat hpat]
  | cons sc ss ih =>
    rw [regexSearch, ciSubstring, matchHere_eq_ciPrefixAt pat hpat, ih]

/-- C8 counterexample: the handler feeds the raw parameter to the
regular-expression engine, so the query whose state parameter is the
three characters a dot c returns the property whose stored state is
a b c, although that parameter is not a case-insensitive substring of
the stored field — the filter is not a substring match. -/
theorem dashboard_substring_counterexample :
    dashboard sampleDbAbc
        { state := some "a.c", area := none, minPrice := none
          maxPrice := none, type := none }
      = [propAbc] ∧
    ciSubstringTest "a.c" "abc" = false ∧
    propAbc.locationState = "abc" := by
  refine ⟨by decide, by decide, by decide⟩

/-- C8 (amended): the dashboard filter always requires status active
and ANDs every supplied parameter — state and area as case-insensitive
regular-expression searches of the raw parameter over the stored field
(which coincide with case-insensitive substring matching whenever the
parameter contains no metacharacter such as the dot), minPrice and
maxPrice as an inclusive price range, type as an exact propertyType
match — and the results are ordered newest first by creation time. -/
theorem dashboard_query_spec (db : DB) (q : DashQuery) :
    List.Sorted newerFirst (dashboard db q) ∧
    (∀ p : Property, p ∈ dashboard db q ↔ p ∈ db.properties ∧
      (p.status = "active" ∧
       (∀ s, q.state = some s → regexTestCI s p.locationState = true) ∧
       (∀ a, q.area = some a → regexTestCI a p.locationArea = true) ∧
       (∀ m, q.minPrice = some m → m ≤ p.price) ∧
       (∀ M, q.maxPrice = some M → p.price ≤ M) ∧
       (∀ t, q.type = some t → p.propertyType = t))) ∧
    (∀ pat s : String, (∀ c ∈ pat.toList, c ≠ '.') →
      regexTestCI pat s = ciSubstringTest pat s) := by
  refine ⟨List.sorted_insertionSort _ _, ?_, ?_⟩
  · intro p
    rw [dashboard, (List.perm_insertionSort newerFirst _).mem_iff,
      List.mem_filter]
    obtain ⟨qs, qa, qm, qM, qt⟩ := q
    cases qs <;> cases qa <;> cases qm <;> cases qM <;> cases qt <;>
      simp [propertyMatches, and_assoc]
  · intro pat s hpat
    rw [regexTestCI, ciSubstringTest, regexSearch_eq_ciSubstring _ ?_]
    intro c hc
    exact hpat c hc

/-- C8 (amended) instantiated: a literal state pattern, a price range
and a type filter all match `propAbc`, and on that literal pattern the
regex search agrees with substring containment. -/
theorem dashboard_query_spec_inst :
    propAbc ∈ dashboard sampleDbAbc dashQueryB ∧
    regexTestCI "b" "abc" = ciSubstringTest "b" "abc" := by
  refine ⟨((dashboard_query_spec sampleDbAbc dashQueryB).2.1 propAbc).mpr
      ⟨by decide, by decide, ?_, ?_, ?_, ?_, ?_⟩,
    (dashboard_query_spec sampleDbAbc dashQueryB).2.2 "b" "abc" (by decide)⟩
  · intro s hs
    cases hs
    decide
  · intro a ha
    exact Option.noConfusion ha
  · intro m hm
    cases hm
    decide
  · intro M hM
    cases hM
    decide
  · intro t ht
    cases ht
    decide

/-- C10: GET /rate/:agentId treats an existing user whose role is not
"agent" exactly like a missing agent id: both redirect with the
Agent-not-found flash, before the unlock check — the outcome does not
depend on the session user at all. -/
theorem ratePage_nonagent_as_missing
    (db : DB) (sid sid2 aid : Nat)
    (h : findUser db aid = none ∨
      ∃ u, findUser db aid = some u ∧ u.role ≠ "agent") :
    ratePage db sid aid = .agentNotFound ∧
    ratePage db sid aid = ratePage db sid2 aid := by
  rcases h with h | ⟨u, hu, hrole⟩
  · constructor <;> simp [ratePage, h]
  · refine ⟨?_, ?_⟩
    · simp only [ratePage, hu]
      rw [if_pos hrole]
    · simp only [ratePage, hu]
      rw [if_pos hrole, if_pos hrole]

/-- C10 instantiated: a client-role user and an unknown id. -/
theorem ratePage_nonagent_as_missing_inst :
    ratePage sampleDb 1 1 = .agentNotFound ∧
    ratePage sampleDb 1 9 = .agentNotFound :=
  ⟨(ratePage_nonagent_as_missing sampleDb 1 2 1
      (Or.inr ⟨sampleClient, by decide, by decide⟩)).1,
   (ratePage_nonagent_as_missing sampleDb 1 2 9 (Or.inl (by decide))).1⟩

end HomLet
